import Mathlib

/-!
Shallow embedding of the guided-EDA Streamlit application
(`src/EDA_on_streamlit.py`, `src/main.py`, `src/utils.py`).

The pipeline keeps its whole state in `st.session_state`:
a dataframe `df`, eleven completion flags `step0_done` .. `step10_done`
(created by `set_default_inputs_for_init_session_state`), and the
per-step configuration values written by the sidebar / step widgets
(`data_separator`, `auto_remove_duplicates`, `kept_cols_step3`,
`target_col_step4`).  We model that state as `AppState`, abstract in the
table type `T` (the dataframe contents are produced by pandas, an
external capability).

Widget callbacks are the only state transitions between renders:

* the completion button of step `k` runs
  `(update_df(df), update_completion_state(k))` in its `on_click`;
* `data_separator`'s `on_change` runs `update_completion_state(-1)`;
* `auto_remove_duplicates`'s `on_change` runs `update_completion_state(1)`;
* `kept_cols_step3`'s `on_change` runs `update_completion_state(2)`;
* the per-column type selectboxes and the target-checkbox update run
  `update_completion_state(3)`.

`update_completion_state(step)` walks every session-state key of shape
`step<N>_done`, parses `N` with Python `int`, and sets the flag to
`N <= step`; keys whose middle part fails to parse are skipped.  On the
canonical state the flags live at indices `0..10`, modelled by
`Fin 11 → Bool`; the raw key-string behaviour is modelled separately on
an association list (`update_completion_state` below).
-/

/-- A session-state value: a boolean completion flag or any other entry
(dataframe, separator string, ...), which `update_completion_state`
never touches and which we therefore leave opaque as a tag. -/
inductive SVal where
  | b (v : Bool)
  | other (tag : Nat)
deriving DecidableEq, Repr

/-- True for the whitespace characters Python `int` strips from its
argument before parsing. -/
def isPyWS (c : Char) : Bool :=
  c = ' ' || c = '\t' || c = '\n' || c = '\r' || c = '\x0b' || c = '\x0c'

/-- Drop leading Python whitespace from a character list. -/
def dropWS : List Char → List Char
  | [] => []
  | c :: rest => if isPyWS c then dropWS rest else c :: rest

/-- Strip Python whitespace from both ends of a character list. -/
def pyTrim (cs : List Char) : List Char :=
  ((dropWS ((dropWS cs).reverse)).reverse)

/-- Continue parsing a Python integer literal after its first digit:
digits, optionally separated by single underscores placed between
digits (Python 3 `int` grammar). -/
def digitsTail : List Char → Nat → Option Nat
  | [], acc => some acc
  | '_' :: c :: rest, acc =>
      if c.isDigit then digitsTail rest (acc * 10 + (c.toNat - 48)) else none
  | c :: rest, acc =>
      if c.isDigit then digitsTail rest (acc * 10 + (c.toNat - 48)) else none

/-- Parse a nonempty digit sequence (with Python's in-between
underscores); `none` on any malformed input, mirroring `ValueError`. -/
def digitsVal? : List Char → Option Nat
  | [] => none
  | c :: rest => if c.isDigit then digitsTail rest (c.toNat - 48) else none

/-- Python `int(s)`: optional surrounding whitespace, an optional sign,
then digits; `none` models the `ValueError` raised otherwise. -/
def pyInt? (s : String) : Option Int :=
  match pyTrim s.toList with
  | '-' :: rest => (digitsVal? rest).map (fun n => -(n : Int))
  | '+' :: rest => (digitsVal? rest).map (fun n => (n : Int))
  | cs => (digitsVal? cs).map (fun n => (n : Int))

/-- One left-to-right pass removing every (non-overlapping) occurrence
of `pat` from the input, exactly like Python `s.replace(pat, "")`.
The fuel argument only bounds the recursion; every step consumes at
least one character, so fuel equal to the input length is enough. -/
def stripAllFuel (pat : List Char) : Nat → List Char → List Char
  | 0, s => s
  | _ + 1, [] => []
  | fuel + 1, c :: rest =>
      if (c :: rest).take pat.length == pat then
        stripAllFuel pat fuel (rest.drop (pat.length - 1))
      else
        c :: stripAllFuel pat fuel rest

/-- Python `s.replace(pat, "")`. -/
def removeAllStr (s pat : String) : String :=
  String.mk (stripAllFuel pat.toList s.toList.length s.toList)

/-- Python `s.startswith(pre)`. -/
def strStarts (s pre : String) : Bool :=
  s.toList.take pre.toList.length == pre.toList

/-- Python `s.endswith(suf)`. -/
def strEnds (s suf : String) : Bool :=
  s.toList.drop (s.toList.length - suf.toList.length) == suf.toList

/-- The key test performed by `update_completion_state` on each
session-state key: `key.startswith("step") and key.endswith("_done")`,
then `int(key.replace("step", "").replace("_done", ""))`, where a parse
failure (`ValueError`) makes the key count as malformed (`none`). -/
def stepKeyNum? (key : String) : Option Int :=
  if strStarts key "step" && strEnds key "_done" then
    pyInt? (removeAllStr (removeAllStr key "step") "_done")
  else none

/-- `update_completion_state(step)` at the session-state-dictionary
level: every key that looks like `step<N>_done` with a parseable `N`
is assigned the boolean `N <= step`; all other entries are untouched.
Python dict iteration preserves insertion order and in-place assignment
does not reorder keys, so the update is a positional map. -/
def update_completion_state (step : Int) (state : List (String × SVal)) :
    List (String × SVal) :=
  state.map fun kv =>
    match stepKeyNum? kv.1 with
    | some n => (kv.1, SVal.b (decide (n ≤ step)))
    | none => kv

/-- The canonical completion-flag key `step<n>_done`. -/
def stepKey (n : Nat) : String :=
  "step" ++ toString n ++ "_done"

/-- The pipeline state held in `st.session_state`, restricted to the
canonical keys created by `set_default_inputs_for_init_session_state`
and the sidebar/step widgets.  `T` abstracts the pandas dataframe. -/
structure AppState (T : Type) where
  df : Option T
  done : Fin 11 → Bool
  data_separator : String
  auto_remove_duplicates : String
  kept_cols : List String
  target_col : Option String

/-- The effect of `update_completion_state(step)` on the canonical
eleven flags: flag `n` becomes `n <= step`, regardless of its previous
value. -/
def updateCompletionFlags (step : Int) (_d : Fin 11 → Bool) : Fin 11 → Bool :=
  fun n => decide ((n.val : Int) ≤ step)

/-- `update_completion_state(step)` lifted to the structured state. -/
def applyUpdateCompletion {T : Type} (step : Int) (s : AppState T) : AppState T :=
  { s with done := updateCompletionFlags step s.done }

/-- `update_df(df)`: `st.session_state.df = df`. -/
def update_df {T : Type} (t : T) (s : AppState T) : AppState T :=
  { s with df := some t }

/-- The `on_click` of the completion button rendered by
`set_completion_button(step_num, df)`: the lambda
`(update_df(df), update_completion_state(step_num))` evaluates
`update_df` first, then `update_completion_state`, inside a single
callback, before the next render. -/
def completionClick {T : Type} (k : Nat) (t : T) (s : AppState T) : AppState T :=
  applyUpdateCompletion (k : Int) (update_df t s)

/-- The user interactions that mutate session state between renders:
each constructor is one widget callback of the source, together with
the widget value Streamlit writes to session state before `on_change`
runs. -/
inductive UEvent (T : Type) where
  | clickComplete (k : Nat) (t : T)
  | sepChange (v : String)
  | dedupeChange (v : String)
  | keptColsChange (cols : List String)
  | typeChange
  | targetChange (c : String)

/-- Apply one widget callback to the session state. -/
def applyEvent {T : Type} (e : UEvent T) (s : AppState T) : AppState T :=
  match e with
  | .clickComplete k t => completionClick k t s
  | .sepChange v => applyUpdateCompletion (-1) { s with data_separator := v }
  | .dedupeChange v => applyUpdateCompletion 1 { s with auto_remove_duplicates := v }
  | .keptColsChange cols => applyUpdateCompletion 2 { s with kept_cols := cols }
  | .typeChange => applyUpdateCompletion 3 s
  | .targetChange c => applyUpdateCompletion 3 { s with target_col := some c }

/-- Apply a sequence of widget callbacks in order. -/
def applyEvents {T : Type} (es : List (UEvent T)) (s : AppState T) : AppState T :=
  es.foldl (fun s e => applyEvent e s) s

/-- The state right after `set_default_inputs_for_init_session_state`
and the sidebar defaults: no dataframe, every flag `False`, separator
selectbox default index 1 over `[",", ";"]`, dedupe default `"YES"`. -/
def initState (T : Type) : AppState T :=
  { df := none
    done := fun _ => false
    data_separator := ";"
    auto_remove_duplicates := "YES"
    kept_cols := []
    target_col := none }

/-- No step is ever `done` while an earlier step is `pending`. -/
def downwardClosed (d : Fin 11 → Bool) : Prop :=
  ∀ j k : Fin 11, k ≤ j → d j = true → d k = true

/-- `show_content_step_0`, restricted to its state effect: guard
`if not data_path or not os.path.exists(data_path): st.stop()`, then
`st.session_state.df = pd.read_csv(data_path, sep=data_separator)`.
`load` abstracts `pd.read_csv` (the external TableLoader) and
`pathExists` abstracts `os.path.exists`. -/
def renderStep0 {T : Type} (load : String → String → T) (data_path : String)
    (pathExists : Bool) (s : AppState T) : AppState T :=
  if data_path = "" ∨ pathExists = false then s
  else { s with df := some (load data_path s.data_separator) }

/-- Whether `show_content_step_3` reaches its completion button: the
function returns early (button withheld) exactly when `kept_cols` is
empty (`if not kept_cols: ... return`); no other validity condition is
checked before `set_completion_button(step_num=3, df=df_S3)`. -/
def step3CompletionOffered {T : Type} (s : AppState T) : Bool :=
  !s.kept_cols.isEmpty

/-- `st.session_state.get ("step<n>_done", False)` on the canonical
state: flags exist for indices `0..10`; any other index falls back to
the `.get` default `False`. -/
def doneGet {T : Type} (s : AppState T) (n : Nat) : Bool :=
  if h : n < 11 then s.done ⟨n, h⟩ else false

/-- The `main` render loop: `step_functions` has six entries, and entry
`i` runs iff `i == 0 or st.session_state.get ("step<i-1>_done", False)`.
We record the indices of the steps whose content is rendered. -/
def renderedSteps {T : Type} (s : AppState T) : List Nat :=
  (List.range 6).filter fun i => i == 0 || doneGet s (i - 1)

/-- The sidebar sections exposed by `sidebar_inputs`: step 0's widgets
unconditionally, step 1's under `if st.session_state.step0_done`,
step 2's under `if step1_done`, step 3's under `if step2_done`; no
later step has sidebar configuration. -/
def sidebarSteps {T : Type} (s : AppState T) : List Nat :=
  [0] ++ (if doneGet s 0 then [1] else []) ++
    (if doneGet s 1 then [2] else []) ++
    (if doneGet s 2 then [3] else [])

/-- The probing loop of `get_available_port` in `src/main.py`:
`tries` remaining attempts, current `port`; a port with
`connect_ex != 0` is free and returned, otherwise probe `port + 1`.
`none` models the `RuntimeError` raised after the loop. -/
def portProbe (free : Nat → Bool) (port : Nat) : Nat → Option Nat
  | 0 => none
  | t + 1 => if free port then some port else portProbe free (port + 1) t

/-- `get_available_port(start_port, max_tries)`. -/
def get_available_port (free : Nat → Bool) (start_port : Nat)
    (max_tries : Nat) : Option Nat :=
  portProbe free start_port max_tries

/-- The ports probed by `get_available_port`, in probing order. -/
def portProbes (free : Nat → Bool) (port : Nat) : Nat → List Nat
  | 0 => []
  | t + 1 =>
      if free port then [port]
      else port :: portProbes free (port + 1) t

/-- Python `list.index(a)` for the guarded call in
`get_data_path_from_command_line` (first index of `a`; only evaluated
under an `a in list` guard, where it is total). -/
def pyIndex (a : String) : List String → Nat
  | [] => 0
  | x :: xs => if x = a then 0 else pyIndex a xs + 1

/-- `get_data_path_from_command_line()` over an explicit `sys.argv`:
if `"--data-path"` occurs and is followed by at least one argument,
return that argument; otherwise return `""`. -/
def get_data_path_from_command_line (argv : List String) : String :=
  if "--data-path" ∈ argv then
    if pyIndex "--data-path" argv + 1 < argv.length then
      argv.getD (pyIndex "--data-path" argv + 1) ""
    else ""
  else ""

/-- A state with steps 0 through 2 done, a chosen target column that the
kept-column selection no longer contains. -/
def sTargetExcluded : AppState Nat :=
  { df := some 0
    done := fun n => decide (n.val ≤ 2)
    data_separator := ";"
    auto_remove_duplicates := "YES"
    kept_cols := ["A", "B"]
    target_col := some "C" }

/-- A state whose stored snapshot (`df = some 99`) is the committed
output of an earlier confirmed step and differs from a fresh load. -/
def sCommitted : AppState Nat :=
  { df := some 99
    done := fun n => decide (n.val ≤ 4)
    data_separator := ","
    auto_remove_duplicates := "YES"
    kept_cols := ["age", "job"]
    target_col := some "y" }

/-- A state with steps 0 and 1 done, used to witness the gating rules. -/
def sTwoDone : AppState Nat :=
  { df := some 5
    done := fun n => decide (n.val ≤ 1)
    data_separator := ";"
    auto_remove_duplicates := "YES"
    kept_cols := []
    target_col := none }

/-- A state with steps 0 through 4 done. -/
def sFiveDone : AppState Nat :=
  { df := some 7
    done := fun n => decide (n.val ≤ 4)
    data_separator := ";"
    auto_remove_duplicates := "NO"
    kept_cols := ["A"]
    target_col := none }

/-- The session state right after confirming steps 0, 1 and 2 in order
from the initial state: steps 0 and 1 commit the raw table (`10`), and
step 2's button commits its deduplicated output (`20`). -/
def sAfterStep2Commit : AppState Nat :=
  applyEvents
    [UEvent.clickComplete 0 10, UEvent.clickComplete 1 10,
      UEvent.clickComplete 2 20] (initState Nat)

theorem dc_threshold (a : Int) :
    downwardClosed (fun n : Fin 11 => decide ((n.val : Int) ≤ a)) := by
  intro j k hkj hj
  simp only [decide_eq_true_eq] at hj ⊢
  have hk : (k.val : Nat) ≤ j.val := hkj
  omega

theorem applyEvent_done_dc {T : Type} (e : UEvent T) (s : AppState T) :
    downwardClosed ((applyEvent e s).done) := by
  cases e <;> exact dc_threshold _

theorem applyEvents_dc {T : Type} :
    ∀ (es : List (UEvent T)) (s : AppState T),
      downwardClosed s.done → downwardClosed ((applyEvents es s).done) := by
  intro es
  induction es with
  | nil => intro s h; exact h
  | cons e rest ih => intro s _; exact ih (applyEvent e s) (applyEvent_done_dc e s)

/-- C1: every completion state reachable from the initial state through
any sequence of completion-button advances and configuration-change
invalidations (each realised by `update_completion_state`) is a
downward-closed prefix of the step order: no step is `done` while an
earlier step is `pending`. -/
theorem pipeline_done_downward_closed {T : Type} (es : List (UEvent T)) :
    downwardClosed ((applyEvents es (initState T)).done) := by
  apply applyEvents_dc
  intro j k _ hj
  simp [initState] at hj

/-- Witness for C1 at a concrete event sequence. -/
theorem pipeline_done_downward_closed_witness :
    downwardClosed ((applyEvents
      [UEvent.clickComplete 0 (3 : Nat), UEvent.clickComplete 1 3,
        UEvent.keptColsChange ["A"]] (initState Nat)).done) :=
  pipeline_done_downward_closed _

/-- C2: from a state with steps 0 through 4 all done, a change of the
structural parameter owned by step 2 (the dedupe policy, whose
`on_change` runs `update_completion_state(1)`) leaves exactly steps 0
and 1 done and steps 2, 3, 4 pending, whatever the new value is. -/
theorem step2_invalidation_cascade {T : Type} (v : String) (s : AppState T)
    (_h : ∀ k : Fin 11, k.val ≤ 4 → s.done k = true) :
    ((applyEvent (UEvent.dedupeChange v) s).done 0 = true) ∧
    ((applyEvent (UEvent.dedupeChange v) s).done 1 = true) ∧
    ((applyEvent (UEvent.dedupeChange v) s).done 2 = false) ∧
    ((applyEvent (UEvent.dedupeChange v) s).done 3 = false) ∧
    ((applyEvent (UEvent.dedupeChange v) s).done 4 = false) := by
  refine ⟨?_, ?_, ?_, ?_, ?_⟩ <;> rfl

/-- Witness for C2 at a concrete five-steps-done state. -/
theorem step2_invalidation_cascade_witness :
    ((applyEvent (UEvent.dedupeChange "NO") sFiveDone).done 0 = true) ∧
    ((applyEvent (UEvent.dedupeChange "NO") sFiveDone).done 1 = true) ∧
    ((applyEvent (UEvent.dedupeChange "NO") sFiveDone).done 2 = false) ∧
    ((applyEvent (UEvent.dedupeChange "NO") sFiveDone).done 3 = false) ∧
    ((applyEvent (UEvent.dedupeChange "NO") sFiveDone).done 4 = false) :=
  step2_invalidation_cascade "NO" sFiveDone (by decide)

/-- Callback-level pairing: the completion button's single `on_click`
callback applies the snapshot replacement and the done flag together —
the post-click state has both `df = some t` and step `k` done — and no
other widget callback replaces the snapshot.  This is the intended
atomic commit+advance; a later theorem shows the render pass that
follows every click breaks the paired state again. -/
theorem completionClick_pairs_update {T : Type} (e : UEvent T) (s : AppState T) :
    (∀ k t, e = UEvent.clickComplete k t →
        (applyEvent e s).df = some t ∧
        ∀ h : k < 11, (applyEvent e s).done ⟨k, h⟩ = true) ∧
    ((applyEvent e s).df ≠ s.df →
        ∃ k t, e = UEvent.clickComplete k t ∧ (applyEvent e s).df = some t) := by
  cases e with
  | clickComplete k' t' =>
      constructor
      · intro k t heq
        cases heq
        refine ⟨rfl, ?_⟩
        intro h
        simp [applyEvent, completionClick, applyUpdateCompletion,
          updateCompletionFlags, update_df]
      · intro _
        exact ⟨k', t', rfl, rfl⟩
  | sepChange v =>
      exact ⟨fun k t heq => UEvent.noConfusion heq, fun hne => absurd rfl hne⟩
  | dedupeChange v =>
      exact ⟨fun k t heq => UEvent.noConfusion heq, fun hne => absurd rfl hne⟩
  | keptColsChange cols =>
      exact ⟨fun k t heq => UEvent.noConfusion heq, fun hne => absurd rfl hne⟩
  | typeChange =>
      exact ⟨fun k t heq => UEvent.noConfusion heq, fun hne => absurd rfl hne⟩
  | targetChange c =>
      exact ⟨fun k t heq => UEvent.noConfusion heq, fun hne => absurd rfl hne⟩

/-- C3 fails on the code: right after step 2's click the snapshot is
step 2's output `20` and step 2 reads done (the callback does pair the
two effects), but the rerun that follows every click renders step 0,
whose unguarded `st.session_state.df = pd.read_csv(...)` resets the
snapshot to the fresh raw load `10` — the pre-step-2 snapshot, the
table step 1 committed — while step 2 still reads done: exactly the
observable state the claim rules out. -/
theorem commit_advance_pairing_broken_by_rerun :
    sAfterStep2Commit.df = some 20 ∧
    sAfterStep2Commit.done 2 = true ∧
    (renderStep0 (fun _ _ => (10 : Nat)) "data.csv" true sAfterStep2Commit).done 2
      = true ∧
    (renderStep0 (fun _ _ => (10 : Nat)) "data.csv" true sAfterStep2Commit).df
      = some 10 ∧
    (renderStep0 (fun _ _ => (10 : Nat)) "data.csv" true sAfterStep2Commit).df
      ≠ sAfterStep2Commit.df := by
  refine ⟨by decide, by decide, by decide, by decide, by decide⟩

/-- Counterexample for C4: a concrete state in which a target column
`"C"` was previously chosen and the kept-column set `["A", "B"]` does
not contain it, yet `show_content_step_3` still reaches its completion
button — the claimed validity failure does not happen. -/
theorem step3_target_exclusion_counterexample :
    sTargetExcluded.target_col = some "C" ∧
    ("C" ∈ sTargetExcluded.kept_cols → False) ∧
    step3CompletionOffered sTargetExcluded = true :=
  ⟨rfl, by decide, rfl⟩

/-- C4 (amended): the attribute-selection step withholds its completion
control exactly when the kept-column set is empty; the previously
chosen target column is never consulted, so excluding it from a
nonempty kept set leaves the completion control available. -/
theorem step3_gate_ignores_target {T : Type} (s : AppState T) :
    (step3CompletionOffered s = true ↔ s.kept_cols ≠ []) ∧
    (∀ c, step3CompletionOffered { s with target_col := c } =
      step3CompletionOffered s) := by
  constructor
  · simp [step3CompletionOffered]
  · intro c; rfl

/-- Witness for C4's amended statement at a concrete state. -/
theorem step3_gate_ignores_target_witness :
    (step3CompletionOffered sTargetExcluded = true ↔
      sTargetExcluded.kept_cols ≠ []) ∧
    (∀ c, step3CompletionOffered { sTargetExcluded with target_col := c } =
      step3CompletionOffered sTargetExcluded) :=
  step3_gate_ignores_target sTargetExcluded

/-- C5: after a separator change every completion flag is pending
(`update_completion_state(-1)`), even if step 0 was previously done,
and the next render of step 0 loads the table with the new separator
value. -/
theorem separator_change_reload {T : Type} (load : String → String → T)
    (path : String) (newSep : String) (s : AppState T) (hpath : path ≠ "") :
    (∀ n, (applyEvent (UEvent.sepChange newSep) s).done n = false) ∧
    (renderStep0 load path true (applyEvent (UEvent.sepChange newSep) s)).df
      = some (load path newSep) := by
  constructor
  · intro n
    simp only [applyEvent, applyUpdateCompletion, updateCompletionFlags,
      decide_eq_false_iff_not]
    omega
  · rw [renderStep0, if_neg]
    · rfl
    · simp [hpath]

/-- Witness for C5 from the initial state with a concrete loader. -/
theorem separator_change_reload_witness :
    (∀ n, (applyEvent (UEvent.sepChange ",") (initState Nat)).done n = false) ∧
    (renderStep0 (fun _ _ => (7 : Nat)) "d.csv" true
      (applyEvent (UEvent.sepChange ",") (initState Nat))).df = some 7 :=
  separator_change_reload (fun _ _ => (7 : Nat)) "d.csv" "," (initState Nat)
    (by decide)

/-- C6: the `main` loop renders step `k`'s content iff `k = 0` or step
`k-1` is done (for the six registered steps), and `sidebar_inputs`
exposes step `k`'s configuration only when step `k-1` is done — only
steps 1, 2, 3 have sidebar configuration at all — while step 0's
content and configuration are always rendered. -/
theorem gated_rendering_config {T : Type} (s : AppState T) :
    (0 ∈ renderedSteps s) ∧
    (∀ k, 0 < k → k < 6 → (k ∈ renderedSteps s ↔ doneGet s (k - 1) = true)) ∧
    (∀ k, k ∈ renderedSteps s → k < 6) ∧
    (0 ∈ sidebarSteps s) ∧
    (∀ k, 0 < k → (k ∈ sidebarSteps s ↔ (k ≤ 3 ∧ doneGet s (k - 1) = true))) := by
  refine ⟨?_, ?_, ?_, ?_, ?_⟩
  · simp [renderedSteps]
  · intro k hk0 hk6
    constructor
    · intro hmem
      obtain ⟨-, hp⟩ := List.mem_filter.mp hmem
      simp at hp
      rcases hp with h0 | hd
      · omega
      · exact hd
    · intro hd
      exact List.mem_filter.mpr ⟨List.mem_range.mpr hk6, by simp [hd]⟩
  · intro k hmem
    exact List.mem_range.mp (List.mem_filter.mp hmem).1
  · simp [sidebarSteps]
  · intro k hk
    by_cases hk3 : k ≤ 3
    · interval_cases k
      · cases h0 : doneGet s 0 <;> simp [sidebarSteps, h0]
      · cases h0 : doneGet s 0 <;> cases h1 : doneGet s 1 <;>
          simp [sidebarSteps, h0, h1]
      · cases h0 : doneGet s 0 <;> cases h1 : doneGet s 1 <;>
          cases h2 : doneGet s 2 <;> simp [sidebarSteps, h0, h1, h2]
    · constructor
      · intro hmem
        exfalso
        rcases (by simpa [sidebarSteps] using hmem :
            k = 0 ∨ (doneGet s 0 = true ∧ k = 1) ∨
              (doneGet s 1 = true ∧ k = 2) ∨ (doneGet s 2 = true ∧ k = 3)) with
          h | ⟨-, h⟩ | ⟨-, h⟩ | ⟨-, h⟩ <;> omega
      · rintro ⟨h3, -⟩
        omega

/-- Witness for C6 at a concrete state with steps 0 and 1 done. -/
theorem gated_rendering_config_witness :
    (3 ∈ renderedSteps sTwoDone ↔ doneGet sTwoDone 2 = true) ∧
    (2 ∈ sidebarSteps sTwoDone ↔ (2 ≤ 3 ∧ doneGet sTwoDone 1 = true)) :=
  ⟨(gated_rendering_config sTwoDone).2.1 3 (by omega) (by omega),
    (gated_rendering_config sTwoDone).2.2.2.2 2 (by omega)⟩

/-- C7 fails on the code: rendering step 0 reassigns the stored
snapshot (`st.session_state.df = pd.read_csv(...)`) with no completion
button confirmed.  From a state whose snapshot `some 99` was committed
by an earlier confirmed step, one render of step 0 with a fresh load
returning `0` replaces the snapshot. -/
theorem renderStep0_overwrites_committed_snapshot :
    (renderStep0 (fun _ _ => (0 : Nat)) "data.csv" true sCommitted).df = some 0 ∧
    sCommitted.df = some 99 ∧
    (renderStep0 (fun _ _ => (0 : Nat)) "data.csv" true sCommitted).df ≠
      sCommitted.df := by
  refine ⟨by decide, rfl, by decide⟩

theorem portProbe_eq_of_first_free (free : Nat → Bool) :
    ∀ (i n p : Nat), i < n → free (p + i) = true →
      (∀ j, j < i → free (p + j) = false) →
      portProbe free p n = some (p + i) := by
  intro i
  induction i with
  | zero =>
      intro n p hn hf _
      obtain ⟨m, rfl⟩ : ∃ m, n = m + 1 := ⟨n - 1, by omega⟩
      simp only [Nat.add_zero] at hf
      simp [portProbe, hf]
  | succ i ih =>
      intro n p hn hf hmin
      obtain ⟨m, rfl⟩ : ∃ m, n = m + 1 := ⟨n - 1, by omega⟩
      have h0 : free p = false := by simpa using hmin 0 (by omega)
      have hf' : free (p + 1 + i) = true := by
        rw [show p + 1 + i = p + (i + 1) by omega]; exact hf
      have hmin' : ∀ j, j < i → free (p + 1 + j) = false := by
        intro j hj
        have := hmin (j + 1) (by omega)
        rwa [show p + (j + 1) = p + 1 + j by omega] at this
      have hres := ih m (p + 1) (by omega) hf' hmin'
      rw [show p + (i + 1) = p + 1 + i by omega]
      simp [portProbe, h0, hres]

theorem portProbe_none_of_all_occupied (free : Nat → Bool) :
    ∀ (n p : Nat), (∀ j, j < n → free (p + j) = false) →
      portProbe free p n = none := by
  intro n
  induction n with
  | zero => intro p _; rfl
  | succ m ih =>
      intro p h
      have h0 : free p = false := by simpa using h 0 (by omega)
      simp only [portProbe, h0, Bool.false_eq_true, if_false]
      exact ih (p + 1) (fun j hj => by
        have := h (j + 1) (by omega)
        rwa [show p + (j + 1) = p + 1 + j by omega] at this)

theorem range_map_add_succ (p n : Nat) :
    (List.range (n + 1)).map (p + ·) = p :: (List.range n).map (p + 1 + ·) := by
  rw [List.range_succ_eq_map, List.map_cons, List.map_map]
  simp only [Nat.add_zero]
  have h2 : ((fun x => p + x) ∘ Nat.succ) = (fun x => p + 1 + x) := by
    funext x
    simp only [Function.comp_apply]
    omega
  rw [h2]

theorem portProbes_of_first_free (free : Nat → Bool) :
    ∀ (i n p : Nat), i < n → free (p + i) = true →
      (∀ j, j < i → free (p + j) = false) →
      portProbes free p n = (List.range (i + 1)).map (p + ·) := by
  intro i
  induction i with
  | zero =>
      intro n p hn hf _
      obtain ⟨m, rfl⟩ : ∃ m, n = m + 1 := ⟨n - 1, by omega⟩
      simp only [Nat.add_zero] at hf
      simp [portProbes, hf, List.range_succ]
  | succ i ih =>
      intro n p hn hf hmin
      obtain ⟨m, rfl⟩ : ∃ m, n = m + 1 := ⟨n - 1, by omega⟩
      have h0 : free p = false := by simpa using hmin 0 (by omega)
      have hf' : free (p + 1 + i) = true := by
        rw [show p + 1 + i = p + (i + 1) by omega]; exact hf
      have hmin' : ∀ j, j < i → free (p + 1 + j) = false := by
        intro j hj
        have := hmin (j + 1) (by omega)
        rwa [show p + (j + 1) = p + 1 + j by omega] at this
      have hres := ih m (p + 1) (by omega) hf' hmin'
      simp only [portProbes, h0, Bool.false_eq_true, if_false, hres]
      rw [range_map_add_succ p (i + 1)]

theorem portProbes_of_all_occupied (free : Nat → Bool) :
    ∀ (n p : Nat), (∀ j, j < n → free (p + j) = false) →
      portProbes free p n = (List.range n).map (p + ·) := by
  intro n
  induction n with
  | zero => intro p _; rfl
  | succ m ih =>
      intro p h
      have h0 : free p = false := by simpa using h 0 (by omega)
      have hres := ih (p + 1) (fun j hj => by
        have := h (j + 1) (by omega)
        rwa [show p + (j + 1) = p + 1 + j by omega] at this)
      simp only [portProbes, h0, Bool.false_eq_true, if_false, hres]
      rw [range_map_add_succ p m]

/-- C8: `get_available_port(p, n)` probes ports `p, p+1, ...` in order
(the probe list is exactly `p .. p+i` when the first free port is
`p+i`, and `p .. p+n-1` on exhaustion); the first free port among the
probed window is returned, and when all `n` probed ports are occupied
the function raises the exhaustion error (modelled by `none`) instead
of returning a port. -/
theorem get_available_port_correct (free : Nat → Bool) (p n i : Nat)
    (_hn : 1 ≤ n) :
    (i < n → free (p + i) = true → (∀ j, j < i → free (p + j) = false) →
        get_available_port free p n = some (p + i) ∧
        portProbes free p n = (List.range (i + 1)).map (p + ·)) ∧
    ((∀ j, j < n → free (p + j) = false) →
        get_available_port free p n = none ∧
        portProbes free p n = (List.range n).map (p + ·)) := by
  constructor
  · intro hi hf hmin
    exact ⟨portProbe_eq_of_first_free free i n p hi hf hmin,
      portProbes_of_first_free free i n p hi hf hmin⟩
  · intro hall
    exact ⟨portProbe_none_of_all_occupied free n p hall,
      portProbes_of_all_occupied free n p hall⟩

/-- Witness for C8: port 8000 occupied, 8001 free — the probe returns
8001 after exactly one failed probe (probe list `[8000, 8001]`). -/
theorem get_available_port_correct_witness :
    get_available_port (fun q => decide (q = 8001)) 8000 10 = some 8001 ∧
    portProbes (fun q => decide (q = 8001)) 8000 10 = [8000, 8001] := by
  have h := (get_available_port_correct (fun q => decide (q = 8001))
      8000 10 1 (by omega)).1 (by omega) (by decide) (by decide)
  exact ⟨h.1, by rw [h.2]; decide⟩

/-- C9: after `update_completion_state(k)` every session-state entry
whose key parses as `step<N>_done` holds exactly the boolean `N <= k`
(whatever it held before — pending steps up to `k` become done, steps
beyond `k` become pending), while malformed step keys and all other
entries are left unchanged. -/
theorem update_completion_state_lookup (step : Int)
    (state : List (String × SVal)) (key : String) :
    List.lookup key (update_completion_state step state) =
      match stepKeyNum? key with
      | some n => (List.lookup key state).map (fun _ => SVal.b (decide (n ≤ step)))
      | none => List.lookup key state := by
  induction state with
  | nil =>
      cases h : stepKeyNum? key <;>
        simp [update_completion_state, List.lookup, h]
  | cons kv rest ih =>
      obtain ⟨k, v⟩ := kv
      by_cases hk : key = k
      · subst hk
        cases h : stepKeyNum? key with
        | some n => simp [update_completion_state, List.lookup, h]
        | none => simp [update_completion_state, List.lookup, h]
      · have hbeq : (key == k) = false := by
          simp [hk]
        cases h : stepKeyNum? k with
        | some n =>
            simp only [update_completion_state, List.map_cons, h,
              List.lookup, hbeq]
            simpa [update_completion_state] using ih
        | none =>
            simp only [update_completion_state, List.map_cons, h,
              List.lookup, hbeq]
            simpa [update_completion_state] using ih

/-- Sanity: each canonical flag key `step<n>_done` (n = 0..10) parses
back to its step number, so `update_completion_state_lookup` applies to
every flag created by `set_default_inputs_for_init_session_state`. -/
theorem stepKeyNum_stepKey (n : Fin 11) :
    stepKeyNum? (stepKey n.val) = some (n.val : Int) := by
  fin_cases n <;> decide

theorem pyIndex_append_notMem (a : String) (pre rest : List String)
    (h : a ∉ pre) : pyIndex a (pre ++ a :: rest) = pre.length := by
  induction pre with
  | nil => simp [pyIndex]
  | cons x xs ih =>
      have hxa : x ≠ a := fun e => h (by simp [e])
      have hnx : a ∉ xs := fun hm => h (List.mem_cons_of_mem _ hm)
      simp [pyIndex, hxa, ih hnx]

theorem getD_append_length_add (d : String) :
    ∀ (pre l : List String) (n : Nat),
      (pre ++ l).getD (pre.length + n) d = l.getD n d := by
  intro pre
  induction pre with
  | nil => intro l n; simp
  | cons x xs ih =>
      intro l n
      rw [List.cons_append, List.length_cons,
        show xs.length + 1 + n = (xs.length + n) + 1 by omega,
        List.getD_cons_succ]
      exact ih l n

/-- C10: `get_data_path_from_command_line` is total on every argument
vector; it returns the argument right after the first `"--data-path"`
when one follows, and the empty string when the flag is absent or is
the last argument (the index access is guarded). -/
theorem get_data_path_from_command_line_spec (argv : List String) :
    ("--data-path" ∉ argv → get_data_path_from_command_line argv = "") ∧
    (∀ pre x post, argv = pre ++ "--data-path" :: x :: post →
        "--data-path" ∉ pre → get_data_path_from_command_line argv = x) ∧
    (∀ pre, argv = pre ++ ["--data-path"] → "--data-path" ∉ pre →
        get_data_path_from_command_line argv = "") := by
  refine ⟨?_, ?_, ?_⟩
  · intro h
    simp [get_data_path_from_command_line, h]
  · rintro pre x post rfl hpre
    have hmem : "--data-path" ∈ pre ++ "--data-path" :: x :: post :=
      List.mem_append_right _ (List.mem_cons_self _ _)
    have hidx := pyIndex_append_notMem "--data-path" pre (x :: post) hpre
    have hlen : pyIndex "--data-path" (pre ++ "--data-path" :: x :: post) + 1 <
        (pre ++ "--data-path" :: x :: post).length := by
      rw [hidx]
      simp [List.length_append]
    simp only [get_data_path_from_command_line, if_pos hmem, if_pos hlen]
    rw [hidx, getD_append_length_add]
    rfl
  · rintro pre rfl hpre
    have hmem : "--data-path" ∈ pre ++ ["--data-path"] :=
      List.mem_append_right _ (List.mem_cons_self _ _)
    have hidx := pyIndex_append_notMem "--data-path" pre [] hpre
    have hlen : ¬ (pyIndex "--data-path" (pre ++ ["--data-path"]) + 1 <
        (pre ++ ["--data-path"]).length) := by
      rw [hidx]
      simp [List.length_append]
    simp only [get_data_path_from_command_line, if_pos hmem, if_neg hlen]

/-- Witness for C10 on a concrete argument vector. -/
theorem get_data_path_from_command_line_spec_witness :
    get_data_path_from_command_line
      ["app.py", "--data-path", "/data/raw/bank.csv"] = "/data/raw/bank.csv" :=
  (get_data_path_from_command_line_spec _).2.1 ["app.py"] "/data/raw/bank.csv"
    [] rfl (by decide)
